import Mathlib

/-!
Verification of the pricing-intelligence engine of `copp1723/pricing_intel`.

The repository sources under `src/` contain the React dashboard
(`Inventory.jsx`, `Analytics.jsx`, the `App.jsx` API client, the sidebar and
settings pages), deployment scripts and the API documentation.  The backend
engine (similarity matcher, market analyzer, pricing scorer, batch
coordinator — `backend/pricing-api/src`) is not among the provided sources, so
those components are modelled from the specification (`spec.md` §3–§4, §7) and
carry `Modelled from the spec:` in their doc comments.  The frontend helpers
(`apiService`, `formatPrice`) are embedded directly from the JSX sources.

Numbers (prices, similarity scores, pricing scores) are modelled as `ℚ`.
The library's rational field operations are `@[irreducible]`, which blocks
evaluation of concrete witnesses, so this file uses kernel-computable wrappers
(`qadd`, `qmul`, `qsub`, `qdiv`, `qinv`) built on `mkRat`; each is proved
equal to the corresponding field operation, and proofs about the engine go
through those equations.
-/

namespace PricingIntel

/-- Multiplication on `ℚ` via `mkRat`; equal to `a * b` (`qmul_eq`). -/
def qmul (a b : ℚ) : ℚ := mkRat (a.num * b.num) (a.den * b.den)

/-- Addition on `ℚ` via `mkRat`; equal to `a + b` (`qadd_eq`). -/
def qadd (a b : ℚ) : ℚ := mkRat (a.num * b.den + b.num * a.den) (a.den * b.den)

/-- Inverse on `ℚ` via `Rat.divInt`; equal to `a⁻¹` (`qinv_eq`). -/
def qinv (a : ℚ) : ℚ := Rat.divInt a.den a.num

/-- Division on `ℚ`; equal to `a / b` (`qdiv_eq`). -/
def qdiv (a b : ℚ) : ℚ := qmul a (qinv b)

/-- Subtraction on `ℚ`; equal to `a - b` (`qsub_eq`). -/
def qsub (a b : ℚ) : ℚ := qadd a (-b)

lemma qmul_eq (a b : ℚ) : qmul a b = a * b := by
  rw [qmul, Rat.mkRat_eq_divInt, Rat.divInt_eq_div]
  push_cast
  conv_rhs => rw [← Rat.num_div_den a, ← Rat.num_div_den b]
  rw [div_mul_div_comm]

lemma qadd_eq (a b : ℚ) : qadd a b = a + b := by
  have ha : ((a.den : ℚ)) ≠ 0 := Nat.cast_ne_zero.mpr a.den_nz
  have hb : ((b.den : ℚ)) ≠ 0 := Nat.cast_ne_zero.mpr b.den_nz
  rw [qadd, Rat.mkRat_eq_divInt, Rat.divInt_eq_div]
  push_cast
  conv_rhs => rw [← Rat.num_div_den a, ← Rat.num_div_den b]
  rw [div_add_div _ _ ha hb]
  ring_nf

lemma qinv_eq (a : ℚ) : qinv a = a⁻¹ := by
  rw [qinv, Rat.divInt_eq_div]
  conv_rhs => rw [← Rat.num_div_den a, inv_div]
  push_cast
  rfl

lemma qdiv_eq (a b : ℚ) : qdiv a b = a / b := by
  rw [qdiv, qmul_eq, qinv_eq, div_eq_mul_inv]

lemma qsub_eq (a b : ℚ) : qsub a b = a - b := by
  rw [qsub, qadd_eq, sub_eq_add_neg]

/-- Modelled from the spec: vehicle condition enum (New/Certified/Used), §3. -/
inductive Condition where
  | new
  | certified
  | used
deriving DecidableEq, Repr

/-- Modelled from the spec: the Vehicle record, §3 (identity VIN, year, make,
model, trim, condition, mileage, price, dealer identifier).  The backend model
file is not under `src/`; fields follow §3 and the Vehicle data model in the
API documentation. -/
structure Vehicle where
  id : Nat
  vin : String
  year : Int
  make : String
  model : String
  trim : String
  condition : Condition
  mileage : Nat
  price : ℚ
  dealer : String
deriving DecidableEq, Repr

/-- Clamp a rational to the interval `[0, 1]`. -/
def clamp01 (x : ℚ) : ℚ := max 0 (min 1 x)

/-- Clamp a rational to the interval `[0, 100]`. -/
def clamp0100 (x : ℚ) : ℚ := max 0 (min 100 x)

/-- Modelled from the spec: market statistics produced by the Market Analyzer,
§4.2 (min/max/avg price over matched candidates, sample size, percentile rank,
market-position label; zero-candidate case has null stats and position
"unknown"). -/
structure MarketStats where
  sampleSize : Nat
  avgPrice : Option ℚ
  minPrice : Option ℚ
  maxPrice : Option ℚ
  percentileRank : Option ℚ
  position : String
deriving DecidableEq, Repr

/-- Modelled from the spec: price-competitiveness score, §4.3 — a monotonically
decreasing function of `(price - avg)/avg`; at market average it scores 50,
price 0 scores 100, twice the average scores 0, clamped to `[0,100]`.  With a
zero sample size (or no market average) it uses the safe neutral fallback 50
(§4.3 Failure). -/
def priceScore (targetPrice : ℚ) (stats : MarketStats) : ℚ :=
  match stats.avgPrice with
  | none => 50
  | some avg =>
    if stats.sampleSize = 0 then 50
    else clamp0100 (qmul 50 (qsub 2 (qdiv targetPrice avg)))

/-- Modelled from the spec: age score, §4.3 — linear decay from 100 at age 0
to 0 at 15 years, clamped to `[0,100]`. -/
def ageScore (currentYear : Int) (year : Int) : ℚ :=
  clamp0100 (qmul 100 (qsub 1 (qdiv ((currentYear - year : Int) : ℚ) 15)))

/-- Modelled from the spec: scarcity score, §4.3 — `100 / (1 + sample_size/k)`
with `k = 5`, clamped to `[0,100]`; zero comparables give 100. -/
def scarcityScore (sampleSize : Nat) : ℚ :=
  clamp0100 (qdiv 100 (qadd 1 (qdiv (sampleSize : ℚ) 5)))

/-- Modelled from the spec: the Score record, §3 — overall score, component
scores, market-position label, nullable percentile rank, recommended action. -/
structure Score where
  overall : ℚ
  price : ℚ
  age : ℚ
  scarcity : ℚ
  position : String
  percentileRank : Option ℚ
  action : String
deriving DecidableEq, Repr

/-- Modelled from the spec: recommended action derived from
(overall score, market position), §4.3 — low score or poor position means
"reduce_price", mid score "monitor", high score "maintain". -/
def recommendedAction (overall : ℚ) (position : String) : String :=
  if overall < 40 ∨ position = "poor" then "reduce_price"
  else if overall < 70 then "monitor"
  else "maintain"

/-- Modelled from the spec: the Pricing Scorer contract
`calculateScore(target, marketStats) -> Score`, §4.3.  Overall score is the
weighted sum of the three components with fixed weights 0.5/0.3/0.2 for
price/age/scarcity; market position and percentile rank are inherited from the
Market Analyzer. -/
def calculateScore (currentYear : Int) (t : Vehicle) (stats : MarketStats) : Score :=
  let p := priceScore t.price stats
  let a := ageScore currentYear t.year
  let s := scarcityScore stats.sampleSize
  let overall := qadd (qadd (qmul (mkRat 1 2) p) (qmul (mkRat 3 10) a)) (qmul (mkRat 1 5) s)
  { overall := overall
    price := p
    age := a
    scarcity := s
    position := stats.position
    percentileRank := stats.percentileRank
    action := recommendedAction overall stats.position }

lemma clamp0100_nonneg (x : ℚ) : 0 ≤ clamp0100 x := le_max_left 0 _

lemma clamp0100_le (x : ℚ) : clamp0100 x ≤ 100 := by
  unfold clamp0100
  exact max_le (by norm_num) (min_le_left _ _)

lemma priceScore_bounds (p : ℚ) (stats : MarketStats) :
    0 ≤ priceScore p stats ∧ priceScore p stats ≤ 100 := by
  unfold priceScore
  cases stats.avgPrice with
  | none => norm_num
  | some avg =>
    by_cases h : stats.sampleSize = 0
    · norm_num [h]
    · simp only [h, if_false]
      exact ⟨clamp0100_nonneg _, clamp0100_le _⟩

lemma ageScore_bounds (c y : Int) : 0 ≤ ageScore c y ∧ ageScore c y ≤ 100 :=
  ⟨clamp0100_nonneg _, clamp0100_le _⟩

lemma scarcityScore_bounds (n : Nat) : 0 ≤ scarcityScore n ∧ scarcityScore n ≤ 100 :=
  ⟨clamp0100_nonneg _, clamp0100_le _⟩

lemma mkRat_half : (mkRat 1 2 : ℚ) = 1/2 := by
  rw [Rat.mkRat_eq_divInt, Rat.divInt_eq_div]
  norm_num

lemma mkRat_three_tenths : (mkRat 3 10 : ℚ) = 3/10 := by
  rw [Rat.mkRat_eq_divInt, Rat.divInt_eq_div]
  norm_num

lemma mkRat_fifth : (mkRat 1 5 : ℚ) = 1/5 := by
  rw [Rat.mkRat_eq_divInt, Rat.divInt_eq_div]
  norm_num

/-- C1: for every vehicle and every market-statistics input, the overall score
returned by `calculateScore` is in `[0,100]`, and each of the three component
scores (price, age, scarcity) is in `[0,100]`. -/
theorem calculateScore_bounds (currentYear : Int) (t : Vehicle) (stats : MarketStats) :
    (0 ≤ (calculateScore currentYear t stats).overall ∧
      (calculateScore currentYear t stats).overall ≤ 100) ∧
    (0 ≤ (calculateScore currentYear t stats).price ∧
      (calculateScore currentYear t stats).price ≤ 100) ∧
    (0 ≤ (calculateScore currentYear t stats).age ∧
      (calculateScore currentYear t stats).age ≤ 100) ∧
    (0 ≤ (calculateScore currentYear t stats).scarcity ∧
      (calculateScore currentYear t stats).scarcity ≤ 100) := by
  obtain ⟨hp0, hp1⟩ := priceScore_bounds t.price stats
  obtain ⟨ha0, ha1⟩ := ageScore_bounds currentYear t.year
  obtain ⟨hs0, hs1⟩ := scarcityScore_bounds stats.sampleSize
  unfold calculateScore
  simp only [qadd_eq, qmul_eq, mkRat_half, mkRat_three_tenths, mkRat_fifth]
  refine ⟨⟨?_, ?_⟩, ⟨hp0, hp1⟩, ⟨ha0, ha1⟩, ⟨hs0, hs1⟩⟩ <;> dsimp only <;> linarith

/-- C5: for every vehicle whose market statistics have `sample_size = 0`,
`calculateScore` returns `scarcity_score = 100` and the safe neutral fallback
`price_score = 50` (no division by zero, the function is total). -/
theorem calculateScore_empty_market (currentYear : Int) (t : Vehicle) (stats : MarketStats)
    (h : stats.sampleSize = 0) :
    (calculateScore currentYear t stats).scarcity = 100 ∧
    (calculateScore currentYear t stats).price = 50 := by
  constructor
  · show scarcityScore stats.sampleSize = 100
    rw [h]
    norm_num [scarcityScore, qdiv_eq, qadd_eq, qmul_eq, qinv_eq, clamp0100]
  · show priceScore t.price stats = 50
    unfold priceScore
    cases stats.avgPrice with
    | none => rfl
    | some avg => simp [h]

/-- Concrete market statistics with an empty sample, exercising the
zero-candidate branch of the scorer. -/
def emptyStats : MarketStats :=
  { sampleSize := 0, avgPrice := none, minPrice := none, maxPrice := none
    percentileRank := none, position := "unknown" }

/-- A sample vehicle used as concrete input in witnesses. -/
def vehicleA : Vehicle :=
  { id := 1, vin := "5NPEL4JA2LH042897", year := 2020, make := "HYUNDAI"
    model := "SONATA", trim := "SEL", condition := Condition.certified
    mileage := 73405, price := 17592, dealer := "World Hyundai of Matteson" }

/-- Witness for C5 at a concrete empty-market input. -/
theorem calculateScore_empty_market_witness :
    (calculateScore 2025 vehicleA emptyStats).scarcity = 100 ∧
    (calculateScore 2025 vehicleA emptyStats).price = 50 :=
  calculateScore_empty_market 2025 vehicleA emptyStats (by decide)

/-- Modelled from the spec: numeric index of a condition, used by the graded
condition-distance table of §4.1. -/
def condIndex : Condition → ℚ
  | Condition.new => 0
  | Condition.certified => 1
  | Condition.used => 2

/-- Modelled from the spec: condition similarity, §4.1 — 1.0 when identical,
otherwise graded by the condition-distance table (half credit per step). -/
def condSim (a b : Condition) : ℚ :=
  qsub 1 (qdiv |qsub (condIndex a) (condIndex b)| 2)

/-- Substring test on character lists: does `hay` contain `needle` as a
contiguous run? -/
def listContains (needle : List Char) : List Char → Bool
  | [] => needle.isEmpty
  | c :: t => needle.isPrefixOf (c :: t) || listContains needle t

/-- Substring test on strings, used for trim containment and for the
status-in-message check of the frontend API client. -/
def strContains (hay needle : String) : Bool :=
  listContains needle.toList hay.toList

/-- Modelled from the spec: trim similarity, §4.1 — 1.0 on exact match, 0.5
partial credit when one trim contains the other, 0 otherwise. -/
def trimSim (a b : String) : ℚ :=
  if a = b then 1
  else if strContains a b || strContains b a then mkRat 1 2
  else 0

/-- Modelled from the spec: year closeness, §4.1 —
`max(0, 1 - |yearDiff| / yearTolerance)` with the default tolerance 3. -/
def yearSim (a b : Int) : ℚ :=
  max 0 (qsub 1 (qdiv |((a - b : Int) : ℚ)| 3))

/-- Modelled from the spec: weighted component similarity of §4.1 with weights
0.3 make, 0.3 model, 0.15 trim, 0.15 year, 0.1 condition, clamped to `[0,1]`. -/
def similarity (t c : Vehicle) : ℚ :=
  clamp01 (qadd (qadd (qadd (qadd
    (qmul (mkRat 3 10) (if t.make = c.make then 1 else 0))
    (qmul (mkRat 3 10) (if t.model = c.model then 1 else 0)))
    (qmul (mkRat 3 20) (trimSim t.trim c.trim)))
    (qmul (mkRat 3 20) (yearSim t.year c.year)))
    (qmul (mkRat 1 10) (condSim t.condition c.condition)))

/-- Modelled from the spec: `exact_match` flag, §4.1 — true iff the VIN differs
but make, model, trim and year all match. -/
def exactMatch (t c : Vehicle) : Bool :=
  (t.vin != c.vin) && (t.make == c.make) && (t.model == c.model)
    && (t.trim == c.trim) && (t.year == c.year)

/-- Modelled from the spec: a ranked match produced by the Similarity Matcher,
§3 — the matched vehicle, its similarity score, the exact-match flag and the
per-attribute match flags. -/
structure RankedMatch where
  vehicle : Vehicle
  score : ℚ
  exactFlag : Bool
  yearFlag : Bool
  makeFlag : Bool
  modelFlag : Bool
  trimFlag : Bool
  condFlag : Bool
deriving DecidableEq, Repr

/-- Modelled from the spec: build the ranked-match record for a candidate. -/
def mkMatch (t c : Vehicle) : RankedMatch :=
  { vehicle := c
    score := similarity t c
    exactFlag := exactMatch t c
    yearFlag := t.year == c.year
    makeFlag := t.make == c.make
    modelFlag := t.model == c.model
    trimFlag := t.trim == c.trim
    condFlag := t.condition == c.condition }

/-- Modelled from the spec: matcher options, §4.1 — `minSimilarity`
(default 0.3), `maxMatches` (default 10), `excludeSameDealer`. -/
structure MatchOptions where
  minSimilarity : ℚ := mkRat 3 10
  maxMatches : Nat := 10
  excludeSameDealer : Bool := false
deriving DecidableEq, Repr

/-- Lexicographic comparison of character lists (a kernel-computable total
order on strings, used for the deterministic VIN tie-break). -/
def listLE : List Char → List Char → Bool
  | [], _ => true
  | _ :: _, [] => false
  | a :: as, b :: bs => if a = b then listLE as bs else decide (a < b)

/-- VIN order: lexicographic on the underlying characters. -/
def vinLE (a b : String) : Bool := listLE a.toList b.toList

lemma listLE_total : ∀ (as bs : List Char), listLE as bs || listLE bs as
  | [], bs => by simp [listLE]
  | a :: as, [] => by simp [listLE]
  | a :: as, b :: bs => by
    by_cases h : a = b
    · subst h
      simpa [listLE] using listLE_total as bs
    · have h' : ¬ b = a := fun e => h e.symm
      simp only [listLE, if_neg h, if_neg h', Bool.or_eq_true, decide_eq_true_eq]
      rcases lt_or_gt_of_ne h with hlt | hgt
      · exact Or.inl hlt
      · exact Or.inr hgt

lemma listLE_trans : ∀ (as bs cs : List Char),
    listLE as bs → listLE bs cs → listLE as cs
  | [], _, _, _, _ => by simp [listLE]
  | a :: as, [], _, h, _ => by simp [listLE] at h
  | a :: as, b :: bs, [], _, h => by simp [listLE] at h
  | a :: as, b :: bs, c :: cs, h1, h2 => by
    by_cases hab : a = b
    · subst hab
      by_cases hac : a = c
      · subst hac
        simp only [listLE, if_pos rfl] at h1 h2 ⊢
        exact listLE_trans as bs cs h1 h2
      · simp only [listLE, if_neg hac] at h2 ⊢
        exact h2
    · by_cases hbc : b = c
      · subst hbc
        simp only [listLE, if_neg hab] at h1 ⊢
        exact h1
      · simp only [listLE, if_neg hab, decide_eq_true_eq] at h1
        simp only [listLE, if_neg hbc, decide_eq_true_eq] at h2
        have hac : a < c := lt_trans h1 h2
        simp only [listLE, if_neg (ne_of_lt hac), decide_eq_true_eq]
        exact hac

lemma vinLE_total (a b : String) : vinLE a b || vinLE b a :=
  listLE_total a.toList b.toList

lemma vinLE_trans (a b c : String) : vinLE a b → vinLE b c → vinLE a c :=
  listLE_trans a.toList b.toList c.toList

/-- Absolute price difference between the target and a match, the first
tie-break key of §4.1. -/
def priceDiff (t : Vehicle) (m : RankedMatch) : ℚ :=
  |qsub t.price m.vehicle.price|

/-- Modelled from the spec: the ranking order of §4.1 — `a` precedes `b` when
`a` has strictly higher similarity, or equal similarity and strictly smaller
price difference, or both equal and VIN no greater (deterministic total
tie-break). -/
def matchRel (t : Vehicle) (a b : RankedMatch) : Prop :=
  b.score < a.score ∨
    (b.score = a.score ∧
      (priceDiff t a < priceDiff t b ∨
        (priceDiff t a = priceDiff t b ∧ vinLE a.vehicle.vin b.vehicle.vin)))

instance (t : Vehicle) (a b : RankedMatch) : Decidable (matchRel t a b) := by
  unfold matchRel
  exact inferInstance

/-- Boolean form of `matchRel`, used as the comparator of the sort. -/
def matchLE (t : Vehicle) (a b : RankedMatch) : Bool :=
  decide (matchRel t a b)

lemma matchRel_total (t : Vehicle) (a b : RankedMatch) :
    matchRel t a b ∨ matchRel t b a := by
  unfold matchRel
  rcases lt_trichotomy a.score b.score with h | h | h
  · exact Or.inr (Or.inl h)
  · rcases lt_trichotomy (priceDiff t a) (priceDiff t b) with h2 | h2 | h2
    · exact Or.inl (Or.inr ⟨h.symm, Or.inl h2⟩)
    · rcases Bool.or_eq_true _ _ |>.mp (vinLE_total a.vehicle.vin b.vehicle.vin) with h3 | h3
      · exact Or.inl (Or.inr ⟨h.symm, Or.inr ⟨h2, h3⟩⟩)
      · exact Or.inr (Or.inr ⟨h, Or.inr ⟨h2.symm, h3⟩⟩)
    · exact Or.inr (Or.inr ⟨h, Or.inl h2⟩)
  · exact Or.inl (Or.inl h)

lemma matchRel_trans (t : Vehicle) (a b c : RankedMatch) :
    matchRel t a b → matchRel t b c → matchRel t a c := by
  unfold matchRel
  rintro (h1 | ⟨e1, h1⟩) (h2 | ⟨e2, h2⟩)
  · exact Or.inl (lt_trans h2 h1)
  · exact Or.inl (e2 ▸ h1)
  · exact Or.inl (e1 ▸ h2)
  · refine Or.inr ⟨e2.trans e1, ?_⟩
    rcases h1 with p1 | ⟨pe1, v1⟩ <;> rcases h2 with p2 | ⟨pe2, v2⟩
    · exact Or.inl (lt_trans p1 p2)
    · exact Or.inl (pe2 ▸ p1)
    · exact Or.inl (pe1 ▸ p2)
    · exact Or.inr ⟨pe1.trans pe2, vinLE_trans _ _ _ v1 v2⟩

lemma matchLE_total (t : Vehicle) (a b : RankedMatch) :
    matchLE t a b || matchLE t b a := by
  simp only [matchLE, Bool.or_eq_true, decide_eq_true_eq]
  exact matchRel_total t a b

lemma matchLE_trans (t : Vehicle) (a b c : RankedMatch) :
    matchLE t a b → matchLE t b c → matchLE t a c := by
  simp only [matchLE, decide_eq_true_eq]
  exact matchRel_trans t a b c

/-- Insert an element into a list so that a sorted list stays sorted with
respect to the boolean comparator `le`. -/
def insertSorted {α : Type} (le : α → α → Bool) (x : α) : List α → List α
  | [] => [x]
  | y :: ys => if le x y then x :: y :: ys else y :: insertSorted le x ys

/-- Insertion sort with respect to the boolean comparator `le`; structurally
recursive, so it evaluates on concrete inputs. -/
def insertionSort {α : Type} (le : α → α → Bool) : List α → List α
  | [] => []
  | x :: xs => insertSorted le x (insertionSort le xs)

lemma mem_insertSorted {α : Type} (le : α → α → Bool) (x a : α) (l : List α) :
    a ∈ insertSorted le x l ↔ a = x ∨ a ∈ l := by
  induction l with
  | nil => simp [insertSorted]
  | cons y ys ih =>
    by_cases h : le x y
    · rw [insertSorted, if_pos h]
      simp
    · rw [insertSorted, if_neg h]
      simp only [List.mem_cons, ih]
      tauto

lemma mem_insertionSort {α : Type} (le : α → α → Bool) (a : α) (l : List α) :
    a ∈ insertionSort le l ↔ a ∈ l := by
  induction l with
  | nil => simp [insertionSort]
  | cons x xs ih =>
    simp [insertionSort, mem_insertSorted, ih]

lemma pairwise_insertSorted {α : Type} (le : α → α → Bool)
    (trans : ∀ a b c, le a b → le b c → le a c)
    (total : ∀ a b, le a b || le b a) (x : α) (l : List α)
    (hl : l.Pairwise (fun a b => le a b = true)) :
    (insertSorted le x l).Pairwise (fun a b => le a b = true) := by
  induction l with
  | nil => simp [insertSorted]
  | cons y ys ih =>
    rcases List.pairwise_cons.mp hl with ⟨hy, hys⟩
    by_cases h : le x y
    · rw [insertSorted, if_pos h]
      refine List.pairwise_cons.mpr ⟨?_, hl⟩
      intro z hz
      rcases List.mem_cons.mp hz with rfl | hz
      · exact h
      · exact trans x y z h (hy z hz)
    · have hyx : le y x := by
        rcases Bool.or_eq_true _ _ |>.mp (total x y) with hxy | hyx
        · exact absurd hxy h
        · exact hyx
      rw [insertSorted, if_neg h]
      refine List.pairwise_cons.mpr ⟨?_, ih hys⟩
      intro z hz
      rcases (mem_insertSorted le x z ys).mp hz with rfl | hz
      · exact hyx
      · exact hy z hz

lemma pairwise_insertionSort {α : Type} (le : α → α → Bool)
    (trans : ∀ a b c, le a b → le b c → le a c)
    (total : ∀ a b, le a b || le b a) (l : List α) :
    (insertionSort le l).Pairwise (fun a b => le a b = true) := by
  induction l with
  | nil => simp [insertionSort]
  | cons x xs ih => exact pairwise_insertSorted le trans total x (insertionSort le xs) ih

/-- Modelled from the spec: the core of the Similarity Matcher, §4.1 —
exclude the target itself (same VIN) and, when requested, same-dealer
candidates; score the rest; discard candidates below `minSimilarity`; sort
descending by similarity with the deterministic tie-break; truncate to
`maxMatches`. -/
def findMatchesCore (t : Vehicle) (candidates : List Vehicle) (opts : MatchOptions) :
    List RankedMatch :=
  let pool := candidates.filter fun c =>
    (c.vin != t.vin) && (!opts.excludeSameDealer || c.dealer != t.dealer)
  let kept := (pool.map (mkMatch t)).filter fun m => opts.minSimilarity ≤ m.score
  (insertionSort (matchLE t) kept).take opts.maxMatches

/-- Modelled from the spec: typed engine errors, §7 — `NotFound` and
`InvalidInput`. -/
inductive EngineError where
  | notFound
  | invalidInput
deriving DecidableEq, Repr

/-- Modelled from the spec: option validation, §7 — the similarity threshold
must lie in `[0,1]`. -/
def validOptions (opts : MatchOptions) : Bool :=
  decide (0 ≤ opts.minSimilarity ∧ opts.minSimilarity ≤ 1)

/-- Modelled from the spec: the public Matcher contract
`findMatches(target, candidates, options)`, §4.1 and §7 — an out-of-range
similarity threshold is rejected with a typed `InvalidInput` failure before any
computation. -/
def findMatches (t : Vehicle) (candidates : List Vehicle) (opts : MatchOptions) :
    Except EngineError (List RankedMatch) :=
  if validOptions opts then Except.ok (findMatchesCore t candidates opts)
  else Except.error EngineError.invalidInput

/-- Every member of the core match list arises from a candidate with a
different VIN and meets the similarity threshold. -/
lemma mem_findMatchesCore (t : Vehicle) (cs : List Vehicle) (opts : MatchOptions)
    (m : RankedMatch) (hm : m ∈ findMatchesCore t cs opts) :
    ∃ c, c ∈ cs ∧ m = mkMatch t c ∧ c.vin ≠ t.vin ∧ opts.minSimilarity ≤ m.score := by
  unfold findMatchesCore at hm
  have hm2 := (List.take_sublist _ _).subset hm
  rw [mem_insertionSort] at hm2
  obtain ⟨hmap, hsim⟩ := List.mem_filter.mp hm2
  obtain ⟨c, hc, hmk⟩ := List.mem_map.mp hmap
  obtain ⟨hcs, hflags⟩ := List.mem_filter.mp hc
  have hvin : c.vin ≠ t.vin := by
    have := (Bool.and_eq_true _ _).mp hflags |>.1
    exact bne_iff_ne.mp this
  exact ⟨c, hcs, hmk.symm, hvin, of_decide_eq_true hsim⟩

/-- C2: the list returned by `findMatches` never contains the target itself
(identity is the VIN, which is unique per §3) and never contains a match whose
similarity score is below the `minSimilarity` option. -/
theorem findMatches_no_self_no_below (t : Vehicle) (cs : List Vehicle) (opts : MatchOptions)
    (ms : List RankedMatch) (h : findMatches t cs opts = Except.ok ms)
    (m : RankedMatch) (hm : m ∈ ms) :
    m.vehicle.vin ≠ t.vin ∧ opts.minSimilarity ≤ m.score := by
  unfold findMatches at h
  split at h
  · injection h with h
    subst h
    obtain ⟨c, _, rfl, hvin, hsim⟩ := mem_findMatchesCore t cs opts m hm
    exact ⟨hvin, hsim⟩
  · cases h

/-- A second sample vehicle: same make/model/trim/year as `vehicleA`, a
different VIN, dealer and price. -/
def vehicleB : Vehicle :=
  { id := 2, vin := "KMHL64JA3RA401653", year := 2020, make := "HYUNDAI"
    model := "SONATA", trim := "SEL", condition := Condition.certified
    mileage := 50000, price := 19000, dealer := "Metro Hyundai" }

/-- Witness for C2 at a concrete target and candidate set. -/
theorem findMatches_no_self_no_below_witness :
    (mkMatch vehicleA vehicleB).vehicle.vin ≠ vehicleA.vin ∧
    ({} : MatchOptions).minSimilarity ≤ (mkMatch vehicleA vehicleB).score :=
  findMatches_no_self_no_below vehicleA [vehicleB] {}
    (findMatchesCore vehicleA [vehicleB] {}) rfl
    (mkMatch vehicleA vehicleB) (by decide)

lemma findMatchesCore_pairwise (t : Vehicle) (cs : List Vehicle) (opts : MatchOptions) :
    (findMatchesCore t cs opts).Pairwise (matchRel t) := by
  unfold findMatchesCore
  refine List.Pairwise.sublist (List.take_sublist _ _) ?_
  refine List.Pairwise.imp (fun h => of_decide_eq_true h) ?_
  exact pairwise_insertionSort (matchLE t) (matchLE_trans t) (matchLE_total t) _

/-- C3: the match list produced by `findMatches` is sorted in descending order
of similarity; equal similarities are ordered by the deterministic tie-break of
§4.1 (ascending price difference, then VIN), captured by the total order
`matchRel`.  `findMatches` is a pure function of its arguments, so two runs on
unchanged data produce the identical order. -/
theorem findMatches_sorted (t : Vehicle) (cs : List Vehicle) (opts : MatchOptions)
    (ms : List RankedMatch) (h : findMatches t cs opts = Except.ok ms) :
    ms.Pairwise (matchRel t) ∧ ms.Pairwise (fun a b => b.score ≤ a.score) := by
  unfold findMatches at h
  split at h
  · injection h with h
    subst h
    refine ⟨findMatchesCore_pairwise t cs opts, ?_⟩
    refine List.Pairwise.imp ?_ (findMatchesCore_pairwise t cs opts)
    rintro a b (hlt | ⟨heq, _⟩)
    · exact le_of_lt hlt
    · exact le_of_eq heq
  · cases h

/-- Witness for C3 at a concrete target and candidate set. -/
theorem findMatches_sorted_witness :
    (findMatchesCore vehicleA [vehicleB] {}).Pairwise (matchRel vehicleA) ∧
    (findMatchesCore vehicleA [vehicleB] {}).Pairwise (fun a b => b.score ≤ a.score) :=
  findMatches_sorted vehicleA [vehicleB] {} (findMatchesCore vehicleA [vehicleB] {}) rfl

/-- C4: for every match produced by `findMatches`, the `exact_match` flag is
true iff the source and matched vehicle have different VINs and identical
make, model, trim and year; in particular `exact_match = true` implies the
four attributes agree and the VINs differ. -/
theorem findMatches_exactMatch_iff (t : Vehicle) (cs : List Vehicle) (opts : MatchOptions)
    (ms : List RankedMatch) (h : findMatches t cs opts = Except.ok ms)
    (m : RankedMatch) (hm : m ∈ ms) :
    m.exactFlag = true ↔
      (t.vin ≠ m.vehicle.vin ∧ t.make = m.vehicle.make ∧ t.model = m.vehicle.model ∧
        t.trim = m.vehicle.trim ∧ t.year = m.vehicle.year) := by
  unfold findMatches at h
  split at h
  · injection h with h
    subst h
    obtain ⟨c, _, rfl, _, _⟩ := mem_findMatchesCore t cs opts m hm
    simp [mkMatch, exactMatch, Bool.and_eq_true, bne_iff_ne, beq_iff_eq, and_assoc]
  · cases h

/-- Witness for C4 at a concrete target and candidate set. -/
theorem findMatches_exactMatch_iff_witness :
    (mkMatch vehicleA vehicleB).exactFlag = true ↔
      (vehicleA.vin ≠ (mkMatch vehicleA vehicleB).vehicle.vin ∧
        vehicleA.make = (mkMatch vehicleA vehicleB).vehicle.make ∧
        vehicleA.model = (mkMatch vehicleA vehicleB).vehicle.model ∧
        vehicleA.trim = (mkMatch vehicleA vehicleB).vehicle.trim ∧
        vehicleA.year = (mkMatch vehicleA vehicleB).vehicle.year) :=
  findMatches_exactMatch_iff vehicleA [vehicleB] {}
    (findMatchesCore vehicleA [vehicleB] {}) rfl
    (mkMatch vehicleA vehicleB) (by decide)

/-- Sum of a list of rationals (kernel-computable). -/
def qsum (xs : List ℚ) : ℚ := xs.foldr qadd 0

/-- Modelled from the spec: market-position label, §4.2 — threshold the target
price against the candidate average with symmetric bands: at most 85% of
average is "excellent", 95% "competitive", 105% "average", 115%
"below_average", above that "poor". -/
def marketPosition (targetPrice avg : ℚ) : String :=
  if targetPrice ≤ qmul (mkRat 85 100) avg then "excellent"
  else if targetPrice ≤ qmul (mkRat 95 100) avg then "competitive"
  else if targetPrice ≤ qmul (mkRat 105 100) avg then "average"
  else if targetPrice ≤ qmul (mkRat 115 100) avg then "below_average"
  else "poor"

/-- Modelled from the spec: the Market Analyzer contract
`analyzeMarket(target, matches) -> MarketStats`, §4.2 — min/max/avg price over
the matched candidates, percentile rank of the target price within the
candidate distribution (fraction of candidates beaten, with half credit for
ties), position label from the average; the zero-candidate case yields null
stats and position "unknown" without dividing by zero. -/
def analyzeMarket (t : Vehicle) (ms : List RankedMatch) : MarketStats :=
  match ms with
  | [] =>
    { sampleSize := 0, avgPrice := none, minPrice := none, maxPrice := none
      percentileRank := none, position := "unknown" }
  | m :: rest =>
    let prices := (m :: rest).map fun r => r.vehicle.price
    let n : ℚ := (prices.length : ℚ)
    let avg := qdiv (qsum prices) n
    let below := ((prices.filter fun p => p < t.price).length : ℚ)
    let equal := ((prices.filter fun p => p = t.price).length : ℚ)
    { sampleSize := prices.length
      avgPrice := some avg
      minPrice := some (prices.foldr min m.vehicle.price)
      maxPrice := some (prices.foldr max m.vehicle.price)
      percentileRank := some (qdiv (qmul 100 (qadd below (qdiv equal 2))) n)
      position := marketPosition t.price avg }

/-- Modelled from the spec: the Vehicle Store consumed by the engine, §6 —
vehicle records plus the persisted Matches (keyed by source vehicle id,
replace-all semantics) and the persisted Score (one current record per
vehicle, replace semantics). -/
structure Store where
  vehicles : List Vehicle
  matchTable : Nat → List RankedMatch
  scoreTable : Nat → Option Score

lemma Store.eq_of_fields {x y : Store} (h1 : x.vehicles = y.vehicles)
    (h2 : x.matchTable = y.matchTable) (h3 : x.scoreTable = y.scoreTable) : x = y := by
  cases x
  cases y
  simp_all

/-- Modelled from the spec: options of the Batch Coordinator, §4.4 — matcher
options passed through, plus the reference year for the age score. -/
structure BatchOptions where
  matchOpts : MatchOptions := {}
  currentYear : Int := 2025

/-- Look a vehicle up by numeric id. -/
def findVehicle (vehicles : List Vehicle) (id : Nat) : Option Vehicle :=
  vehicles.find? fun v => v.id == id

/-- The matches the engine computes and persists for vehicle `v`: its ranked
matches against the full vehicle list. -/
def computeMatches (vehicles : List Vehicle) (opts : BatchOptions) (v : Vehicle) :
    List RankedMatch :=
  findMatchesCore v vehicles opts.matchOpts

/-- The score the engine computes and persists for vehicle `v`: Matcher then
Market Analyzer then Pricing Scorer (the data flow of §2). -/
def computeScore (vehicles : List Vehicle) (opts : BatchOptions) (v : Vehicle) : Score :=
  calculateScore opts.currentYear v (analyzeMarket v (computeMatches vehicles opts v))

/-- Outcome of processing one vehicle of a batch: the lookup failed, a first
score was created, or an existing score was replaced. -/
inductive StepOutcome where
  | errored
  | createdNew
  | updatedOld
deriving DecidableEq, Repr

/-- Modelled from the spec: per-vehicle step of the Batch Coordinator, §4.4 —
look the vehicle up; on failure leave the store untouched and report an error;
on success replace (not merge) its Matches and Score. -/
def processVehicle (opts : BatchOptions) (s : Store) (id : Nat) : Store × StepOutcome :=
  match findVehicle s.vehicles id with
  | none => (s, StepOutcome.errored)
  | some v =>
    ({ s with
        matchTable := Function.update s.matchTable id (computeMatches s.vehicles opts v)
        scoreTable := Function.update s.scoreTable id (some (computeScore s.vehicles opts v)) },
      if (s.scoreTable id).isSome then StepOutcome.updatedOld else StepOutcome.createdNew)

/-- Modelled from the spec: the summary returned by `runBatch`, §4.4 —
`{processed, created, updated, errors}` plus the error list kept for later
inspection. -/
structure BatchResult where
  processed : Nat
  created : Nat
  updated : Nat
  errors : Nat
  errorIds : List Nat
deriving DecidableEq, Repr

/-- The all-zero batch summary. -/
def emptyResult : BatchResult :=
  { processed := 0, created := 0, updated := 0, errors := 0, errorIds := [] }

/-- Count one step outcome into the batch summary. -/
def addOutcome (id : Nat) (out : StepOutcome) (r : BatchResult) : BatchResult :=
  match out with
  | StepOutcome.errored => { r with errors := r.errors + 1, errorIds := id :: r.errorIds }
  | StepOutcome.createdNew => { r with processed := r.processed + 1, created := r.created + 1 }
  | StepOutcome.updatedOld => { r with processed := r.processed + 1, updated := r.updated + 1 }

/-- Modelled from the spec: the body of the Batch Coordinator, §4.4 — process
the vehicles in order, catching and counting per-vehicle failures instead of
raising.  Chunking into `batchSize`-sized groups only bounds memory and does
not change the result of sequential processing, so the model processes the
flat list. -/
def runBatchCore (opts : BatchOptions) : List Nat → Store → BatchResult × Store
  | [], s => (emptyResult, s)
  | id :: rest, s =>
    let step := processVehicle opts s id
    let next := runBatchCore opts rest step.1
    (addOutcome id step.2 next.1, next.2)

/-- Modelled from the spec: the Batch Coordinator contract
`runBatch(vehicleIds, batchSize) -> {processed, created, updated, errors}`,
§4.4 and §7 — a non-positive batch size is a typed `InvalidInput` failure;
otherwise the batch runs to completion. -/
def runBatch (ids : List Nat) (batchSize : Int) (opts : BatchOptions) (s : Store) :
    Except EngineError (BatchResult × Store) :=
  if batchSize ≤ 0 then Except.error EngineError.invalidInput
  else Except.ok (runBatchCore opts ids s)

lemma processVehicle_vehicles (opts : BatchOptions) (s : Store) (id : Nat) :
    (processVehicle opts s id).1.vehicles = s.vehicles := by
  unfold processVehicle
  cases findVehicle s.vehicles id <;> rfl

lemma runBatchCore_vehicles (opts : BatchOptions) :
    ∀ (ids : List Nat) (s : Store), (runBatchCore opts ids s).2.vehicles = s.vehicles
  | [], s => rfl
  | id :: rest, s => by
    show (runBatchCore opts rest (processVehicle opts s id).1).2.vehicles = s.vehicles
    rw [runBatchCore_vehicles opts rest, processVehicle_vehicles]

/-- The match list a batch run stores at key `k`, with fallback `dflt` when
vehicle `k` is missing. -/
def storedM (vehicles : List Vehicle) (opts : BatchOptions) (k : Nat)
    (dflt : List RankedMatch) : List RankedMatch :=
  match findVehicle vehicles k with
  | some v => computeMatches vehicles opts v
  | none => dflt

/-- The score a batch run stores at key `k`, with fallback `dflt` when vehicle
`k` is missing. -/
def storedS (vehicles : List Vehicle) (opts : BatchOptions) (k : Nat)
    (dflt : Option Score) : Option Score :=
  match findVehicle vehicles k with
  | some v => some (computeScore vehicles opts v)
  | none => dflt

lemma processVehicle_matches (opts : BatchOptions) (s : Store) (id k : Nat) :
    (processVehicle opts s id).1.matchTable k =
      if k = id then storedM s.vehicles opts id (s.matchTable k) else s.matchTable k := by
  unfold processVehicle storedM
  cases h : findVehicle s.vehicles id with
  | none => simp
  | some v => simp [Function.update_apply]

lemma processVehicle_scores (opts : BatchOptions) (s : Store) (id k : Nat) :
    (processVehicle opts s id).1.scoreTable k =
      if k = id then storedS s.vehicles opts id (s.scoreTable k) else s.scoreTable k := by
  unfold processVehicle storedS
  cases h : findVehicle s.vehicles id with
  | none => simp
  | some v => simp [Function.update_apply]

lemma runBatchCore_matches (opts : BatchOptions) :
    ∀ (ids : List Nat) (s : Store) (k : Nat),
      (runBatchCore opts ids s).2.matchTable k =
        if k ∈ ids then storedM s.vehicles opts k (s.matchTable k) else s.matchTable k
  | [], s, k => by simp [runBatchCore]
  | id :: rest, s, k => by
    show (runBatchCore opts rest (processVehicle opts s id).1).2.matchTable k = _
    rw [runBatchCore_matches opts rest, processVehicle_vehicles, processVehicle_matches]
    by_cases hr : k ∈ rest
    · simp only [hr, if_true, List.mem_cons, or_true, if_pos (Or.inr hr)]
      unfold storedM
      cases hv : findVehicle s.vehicles k with
      | some v => rfl
      | none =>
        by_cases hk : k = id
        · subst hk
          simp [hv]
        · simp [hk]
    · simp only [hr, if_false, List.mem_cons, or_false]
      by_cases hk : k = id
      · subst hk
        simp
      · simp [hk]

lemma runBatchCore_scores (opts : BatchOptions) :
    ∀ (ids : List Nat) (s : Store) (k : Nat),
      (runBatchCore opts ids s).2.scoreTable k =
        if k ∈ ids then storedS s.vehicles opts k (s.scoreTable k) else s.scoreTable k
  | [], s, k => by simp [runBatchCore]
  | id :: rest, s, k => by
    show (runBatchCore opts rest (processVehicle opts s id).1).2.scoreTable k = _
    rw [runBatchCore_scores opts rest, processVehicle_vehicles, processVehicle_scores]
    by_cases hr : k ∈ rest
    · simp only [hr, if_true, List.mem_cons, or_true, if_pos (Or.inr hr)]
      unfold storedS
      cases hv : findVehicle s.vehicles k with
      | some v => rfl
      | none =>
        by_cases hk : k = id
        · subst hk
          simp [hv]
        · simp [hk]
    · simp only [hr, if_false, List.mem_cons, or_false]
      by_cases hk : k = id
      · subst hk
        simp
      · simp [hk]

lemma runBatchCore_store_idem (opts : BatchOptions) (ids : List Nat) (s : Store) :
    (runBatchCore opts ids (runBatchCore opts ids s).2).2 = (runBatchCore opts ids s).2 := by
  have hv : (runBatchCore opts ids s).2.vehicles = s.vehicles := runBatchCore_vehicles opts ids s
  refine Store.eq_of_fields (by simp only [runBatchCore_vehicles]) ?_ ?_
  · funext k
    rw [runBatchCore_matches, hv]
    by_cases hk : k ∈ ids
    · simp only [hk, if_true]
      unfold storedM
      cases hfv : findVehicle s.vehicles k with
      | none => rfl
      | some v =>
        rw [runBatchCore_matches]
        simp only [hk, if_true]
        unfold storedM
        rw [hfv]
    · simp [hk]
  · funext k
    rw [runBatchCore_scores, hv]
    by_cases hk : k ∈ ids
    · simp only [hk, if_true]
      unfold storedS
      cases hfv : findVehicle s.vehicles k with
      | none => rfl
      | some v =>
        rw [runBatchCore_scores]
        simp only [hk, if_true]
        unfold storedS
        rw [hfv]
    · simp [hk]

/-- C6: `runBatch` is idempotent on unchanged data — after a successful run,
running the same vehicle ids again over the resulting store succeeds and
leaves the store (all persisted Scores and Match sets) exactly as after the
first run: reprocessing replaces each vehicle's Matches and Score with the
identical values rather than duplicating them. -/
theorem runBatch_idempotent (ids : List Nat) (bs : Int) (opts : BatchOptions) (s : Store)
    (p : BatchResult × Store) (h : runBatch ids bs opts s = Except.ok p) :
    ∃ r₂, runBatch ids bs opts p.2 = Except.ok (r₂, p.2) := by
  unfold runBatch at h ⊢
  split at h
  · cases h
  · injection h with h
    subst h
    rename_i hbs
    rw [if_neg hbs]
    exact ⟨(runBatchCore opts ids (runBatchCore opts ids s).2).1,
      congrArg Except.ok (Prod.ext rfl (runBatchCore_store_idem opts ids s))⟩

/-- A concrete store holding the two sample vehicles and no persisted
matches or scores. -/
def demoStore : Store :=
  { vehicles := [vehicleA, vehicleB], matchTable := fun _ => [], scoreTable := fun _ => none }

/-- Witness for C6: a concrete successful batch whose rerun reproduces the
identical store. -/
theorem runBatch_idempotent_witness :
    ∃ r₂, runBatch [1] 50 {} (runBatchCore ({} : BatchOptions) [1] demoStore).2 =
      Except.ok (r₂, (runBatchCore ({} : BatchOptions) [1] demoStore).2) :=
  runBatch_idempotent [1] 50 {} demoStore (runBatchCore ({} : BatchOptions) [1] demoStore) rfl

/-- A third sample vehicle (id 4), unrelated make and model. -/
def vehicleC : Vehicle :=
  { id := 4, vin := "1FTEW1EP5LKD11111", year := 2019, make := "FORD"
    model := "F-150", trim := "XLT", condition := Condition.used
    mileage := 80000, price := 31000, dealer := "Metro Ford" }

/-- A fourth sample vehicle (id 5), unrelated make and model. -/
def vehicleD : Vehicle :=
  { id := 5, vin := "3GNAXUEV1LL222222", year := 2021, make := "CHEVROLET"
    model := "EQUINOX", trim := "LT", condition := Condition.new
    mileage := 10, price := 28000, dealer := "Metro Chevrolet" }

/-- A concrete store holding vehicles with ids 1, 2, 4 and 5 — id 3 is
missing. -/
def batchStore : Store :=
  { vehicles := [vehicleA, vehicleB, vehicleC, vehicleD]
    matchTable := fun _ => [], scoreTable := fun _ => none }

lemma runBatchCore_cons (opts : BatchOptions) (id : Nat) (rest : List Nat) (s : Store) :
    runBatchCore opts (id :: rest) s =
      (addOutcome id (processVehicle opts s id).2
          (runBatchCore opts rest (processVehicle opts s id).1).1,
        (runBatchCore opts rest (processVehicle opts s id).1).2) := rfl

/-- A batch run counts exactly the found ids in `processed` and exactly the
missing ids in `errors`, collecting the latter in order in `errorIds` — the
per-vehicle failures are caught and tallied, never propagated. -/
lemma runBatchCore_counts (opts : BatchOptions) :
    ∀ (ids : List Nat) (s : Store),
      (runBatchCore opts ids s).1.processed =
          (ids.filter fun k => (findVehicle s.vehicles k).isSome).length ∧
        (runBatchCore opts ids s).1.errors =
          (ids.filter fun k => (findVehicle s.vehicles k).isNone).length ∧
        (runBatchCore opts ids s).1.errorIds =
          (ids.filter fun k => (findVehicle s.vehicles k).isNone)
  | [], s => by simp [runBatchCore, emptyResult]
  | id :: rest, s => by
    obtain ⟨ih1, ih2, ih3⟩ := runBatchCore_counts opts rest (processVehicle opts s id).1
    rw [processVehicle_vehicles] at ih1 ih2 ih3
    rw [runBatchCore_cons]
    cases hv : findVehicle s.vehicles id with
    | none =>
      have hs2 : (processVehicle opts s id).2 = StepOutcome.errored := by
        unfold processVehicle
        rw [hv]
      rw [hs2]
      refine ⟨?_, ?_, ?_⟩ <;> simp [addOutcome, List.filter_cons, hv, ih1, ih2, ih3]
    | some v =>
      have hs2 : (processVehicle opts s id).2 =
          if (s.scoreTable id).isSome then StepOutcome.updatedOld
          else StepOutcome.createdNew := by
        unfold processVehicle
        rw [hv]
      rw [hs2]
      by_cases hsc : (s.scoreTable id).isSome <;>
        refine ⟨?_, ?_, ?_⟩ <;>
          simp [hsc, addOutcome, List.filter_cons, hv, ih1, ih2, ih3]

/-- Every id of a batch is accounted for: the found and the missing ids
together exhaust the list. -/
lemma length_filter_found_add_missing (vehicles : List Vehicle) (ids : List Nat) :
    (ids.filter fun k => (findVehicle vehicles k).isSome).length +
      (ids.filter fun k => (findVehicle vehicles k).isNone).length = ids.length := by
  induction ids with
  | nil => rfl
  | cons i rest ih =>
    cases h : findVehicle vehicles i <;> simp [List.filter_cons, h] <;> omega

/-- C7: `runBatch` never aborts on a single bad record — for every list of
vehicle ids and every store, a run with a positive batch size returns
`Except.ok` (no exception propagates); the ids missing from the store are
exactly counted in `errors` and collected in `errorIds`, the found ids are
exactly counted in `processed`, and every id is accounted for
(`processed + errors` is the batch length).  The witness instantiates the §8
scenario: a batch of five ids with id 3 missing gives `processed = 4`,
`errors = 1`. -/
theorem runBatch_never_aborts (ids : List Nat) (bs : Int) (opts : BatchOptions) (s : Store)
    (hbs : 0 < bs) :
    ∃ p : BatchResult × Store, runBatch ids bs opts s = Except.ok p ∧
      p.1.processed = (ids.filter fun k => (findVehicle s.vehicles k).isSome).length ∧
      p.1.errors = (ids.filter fun k => (findVehicle s.vehicles k).isNone).length ∧
      p.1.errorIds = (ids.filter fun k => (findVehicle s.vehicles k).isNone) ∧
      p.1.processed + p.1.errors = ids.length := by
  obtain ⟨h1, h2, h3⟩ := runBatchCore_counts opts ids s
  refine ⟨runBatchCore opts ids s, ?_, h1, h2, h3, ?_⟩
  · unfold runBatch
    rw [if_neg (not_le.mpr hbs)]
  · rw [h1, h2]
    exact length_filter_found_add_missing s.vehicles ids

/-- Witness for C7 at the concrete §8 scenario: the batch `[1,2,3,4,5]` over
the store missing id 3 returns `Except.ok` with `processed = 4` and
`errors = 1` and error list `[3]`. -/
theorem runBatch_never_aborts_witness :
    ∃ p : BatchResult × Store,
      runBatch [1, 2, 3, 4, 5] 50 {} batchStore = Except.ok p ∧
        p.1.processed = 4 ∧ p.1.errors = 1 ∧ p.1.errorIds = [3] := by
  obtain ⟨p, hok, hproc, herr, herrIds, -⟩ :=
    runBatch_never_aborts [1, 2, 3, 4, 5] 50 {} batchStore (by decide)
  refine ⟨p, hok, ?_, ?_, ?_⟩
  · rw [hproc]
    decide
  · rw [herr]
    decide
  · rw [herrIds]
    decide

/-- Modelled from the spec: the stateful matcher entry point of §4.1 and §6 —
look the target up by VIN, compute its ranked matches and, when requested,
persist them with replace-all semantics; an out-of-range similarity threshold
fails with `InvalidInput` before any computation, an unknown VIN with
`NotFound`, and in both failure cases the store is returned unchanged. -/
def findMatchesStore (vin : String) (opts : MatchOptions) (storeResults : Bool) (s : Store) :
    Except EngineError (List RankedMatch) × Store :=
  if validOptions opts then
    match s.vehicles.find? (fun v => v.vin == vin) with
    | none => (Except.error EngineError.notFound, s)
    | some t =>
      let ms := findMatchesCore t s.vehicles opts
      (Except.ok ms,
        if storeResults then { s with matchTable := Function.update s.matchTable t.id ms } else s)
  else (Except.error EngineError.invalidInput, s)

/-- C8: a similarity threshold outside `[0,1]` makes the matcher fail with the
typed `InvalidInput` error, both in the pure contract and in the stateful
entry point, and the stored state is returned unchanged — no Matches are
computed or persisted. -/
theorem findMatches_invalid_threshold (t : Vehicle) (cs : List Vehicle) (vin : String)
    (opts : MatchOptions) (b : Bool) (s : Store)
    (h : opts.minSimilarity < 0 ∨ 1 < opts.minSimilarity) :
    findMatches t cs opts = Except.error EngineError.invalidInput ∧
    findMatchesStore vin opts b s = (Except.error EngineError.invalidInput, s) := by
  have hv : validOptions opts = false := by
    unfold validOptions
    rw [decide_eq_false_iff_not]
    rintro ⟨h0, h1⟩
    rcases h with h | h
    · exact absurd h0 (not_le.mpr h)
    · exact absurd h1 (not_le.mpr h)
  constructor
  · unfold findMatches
    rw [hv]
    rfl
  · unfold findMatchesStore
    rw [hv]
    rfl

/-- Matcher options with the invalid threshold 1.1 of the §8 scenario. -/
def invalidOpts : MatchOptions :=
  { minSimilarity := mkRat 11 10, maxMatches := 10, excludeSameDealer := false }

/-- Witness for C8 at the concrete invalid threshold `minSimilarity = 1.1`. -/
theorem findMatches_invalid_threshold_witness :
    findMatches vehicleA [vehicleB] invalidOpts = Except.error EngineError.invalidInput ∧
    findMatchesStore "5NPEL4JA2LH042897" invalidOpts true demoStore =
      (Except.error EngineError.invalidInput, demoStore) :=
  findMatches_invalid_threshold vehicleA [vehicleB] "5NPEL4JA2LH042897" invalidOpts true
    demoStore (Or.inr (by decide))

/-- An HTTP response as seen by the frontend API client: the `ok` flag, the
numeric status code, and the parsed JSON body (abstract payload type `α`). -/
structure HttpResponse (α : Type) where
  ok : Bool
  status : Nat
  json : α

/-- From `src/unnamed/part_001` (`App.jsx`), `apiService.get`: when
`response.ok` is false, throw an `Error` whose message interpolates the HTTP
status; otherwise return the parsed JSON body. -/
def apiGet {α : Type} (r : HttpResponse α) : Except String α :=
  if r.ok = false then Except.error ("HTTP error! status: " ++ toString r.status)
  else Except.ok r.json

/-- From `src/unnamed/part_001` (`App.jsx`), `apiService.post`: the request
payload is serialized into the request, and the response is handled exactly as
in `get` — throw on `ok = false`, otherwise return the parsed JSON body. -/
def apiPost {α β : Type} (_payload : β) (r : HttpResponse α) : Except String α :=
  if r.ok = false then Except.error ("HTTP error! status: " ++ toString r.status)
  else Except.ok r.json

lemma isPrefixOf_self (l : List Char) : l.isPrefixOf l = true := by
  induction l with
  | nil => rfl
  | cons c t ih => simp [List.isPrefixOf, ih]

lemma listContains_append_self (pre needle : List Char) :
    listContains needle (pre ++ needle) = true := by
  induction pre with
  | nil =>
    cases needle with
    | nil => rfl
    | cons c t => simp [listContains, isPrefixOf_self]
  | cons c pre ih => simp [listContains, ih]

lemma strContains_append (a b : String) : strContains (a ++ b) b = true := by
  unfold strContains
  show listContains b.data (a ++ b).data = true
  rw [String.data_append]
  exact listContains_append_self a.data b.data

/-- C9: for every endpoint and request body, `apiService.get` and
`apiService.post` throw an `Error` whose message contains the HTTP status
exactly when the fetch response has `ok = false`, and otherwise return the
parsed JSON body of the response. -/
theorem apiService_error_iff {α β : Type} (payload : β) (r : HttpResponse α) :
    ((∃ msg, apiGet r = Except.error msg) ↔ r.ok = false) ∧
    (∀ msg, apiGet r = Except.error msg → strContains msg (toString r.status) = true) ∧
    (r.ok = true → apiGet r = Except.ok r.json) ∧
    ((∃ msg, apiPost payload r = Except.error msg) ↔ r.ok = false) ∧
    (∀ msg, apiPost payload r = Except.error msg → strContains msg (toString r.status) = true) ∧
    (r.ok = true → apiPost payload r = Except.ok r.json) := by
  cases hok : r.ok with
  | false =>
    have hget : apiGet r = Except.error ("HTTP error! status: " ++ toString r.status) := by
      simp [apiGet, hok]
    have hpost : apiPost payload r = Except.error ("HTTP error! status: " ++ toString r.status) := by
      simp [apiPost, hok]
    refine ⟨⟨fun _ => rfl, fun _ => ⟨_, hget⟩⟩, ?_, ?_, ⟨fun _ => rfl, fun _ => ⟨_, hpost⟩⟩, ?_, ?_⟩
    · intro msg hmsg
      rw [hget] at hmsg
      injection hmsg with hmsg
      rw [← hmsg]
      exact strContains_append _ _
    · intro h
      cases h
    · intro msg hmsg
      rw [hpost] at hmsg
      injection hmsg with hmsg
      rw [← hmsg]
      exact strContains_append _ _
    · intro h
      cases h
  | true =>
    have hget : apiGet r = Except.ok r.json := by simp [apiGet, hok]
    have hpost : apiPost payload r = Except.ok r.json := by simp [apiPost, hok]
    refine ⟨⟨?_, fun h => by cases h⟩, ?_, fun _ => hget, ⟨?_, fun h => by cases h⟩, ?_,
      fun _ => hpost⟩
    · rintro ⟨msg, hmsg⟩
      rw [hget] at hmsg
      cases hmsg
    · intro msg hmsg
      rw [hget] at hmsg
      cases hmsg
    · rintro ⟨msg, hmsg⟩
      rw [hpost] at hmsg
      cases hmsg
    · intro msg hmsg
      rw [hpost] at hmsg
      cases hmsg

/-- Witness for C9 at concrete responses: a 404 failure whose message contains
the status, and a 200 success returning the body, for both verbs. -/
theorem apiService_error_iff_witness :
    strContains "HTTP error! status: 404" (toString (404 : Nat)) = true ∧
    apiGet { ok := true, status := 200, json := "stats" } = Except.ok "stats" ∧
    apiPost "body" { ok := true, status := 200, json := "stats" } = Except.ok "stats" :=
  ⟨(apiService_error_iff "" ({ ok := false, status := 404, json := "x" } : HttpResponse String)).2.1
      "HTTP error! status: 404" rfl,
    (apiService_error_iff "" ({ ok := true, status := 200, json := "stats" } :
      HttpResponse String)).2.2.1 rfl,
    (apiService_error_iff "body" ({ ok := true, status := 200, json := "stats" } :
      HttpResponse String)).2.2.2.2.2 rfl⟩

/-- From `src/Inventory.jsx` (`formatPrice`): a falsy price — `null` or
`undefined` (modelled as `none`) or the number 0 — renders as "N/A", any other
price as the locale-formatted number prefixed with "$".  The locale formatting
is the JS builtin `toLocaleString`, abstracted as the argument `toLocale`. -/
def formatPrice (toLocale : ℚ → String) (price : Option ℚ) : String :=
  match price with
  | none => "N/A"
  | some p => if p = 0 then "N/A" else "$" ++ toLocale p

lemma dollar_ne_na (s : String) : ("$" ++ s) ≠ "N/A" := by
  intro h
  have h2 := congrArg String.data h
  rw [String.data_append] at h2
  simp at h2

/-- C10: `formatPrice` returns "N/A" exactly when the price is null, undefined
or exactly 0 (any falsy value) — so a vehicle priced at 0 displays as "N/A"
rather than "$0" — and otherwise returns the locale-formatted price with a "$"
prefix. -/
theorem formatPrice_falsy (toLocale : ℚ → String) (price : Option ℚ) :
    (formatPrice toLocale price = "N/A" ↔ price = none ∨ price = some 0) ∧
    (∀ p, price = some p → p ≠ 0 → formatPrice toLocale price = "$" ++ toLocale p) := by
  constructor
  · constructor
    · intro h
      cases price with
      | none => exact Or.inl rfl
      | some p =>
        by_cases hp : p = 0
        · exact Or.inr (by rw [hp])
        · rw [formatPrice, if_neg hp] at h
          exact absurd h (dollar_ne_na _)
    · rintro (rfl | rfl)
      · rfl
      · rfl
  · rintro p rfl hp
    rw [formatPrice, if_neg hp]

/-- A concrete stand-in for the JS `toLocaleString` builtin. -/
def localeDemo : ℚ → String := fun _ => "17,592"

/-- Witness for C10 at a concrete nonzero price, plus the zero-price case. -/
theorem formatPrice_falsy_witness :
    formatPrice localeDemo (some 17592) = "$" ++ localeDemo 17592 ∧
    (formatPrice localeDemo (some 0) = "N/A" ↔ some (0 : ℚ) = none ∨ some (0 : ℚ) = some 0) :=
  ⟨(formatPrice_falsy localeDemo (some 17592)).2 17592 rfl (by norm_num),
    (formatPrice_falsy localeDemo (some 0)).1⟩

end PricingIntel
